import Mathlib

/-!
Verification of the site-crawler subsystem of the Search_engin repository
(`server/services/crawler.js`, `server/middlewares/rateLimit.js`,
`server/models/Website.js`).  The crawler's collaborators (the Node `URL`
class, axios, cheerio) are modelled as explicit data: a parsed document is
the record of query results the source reads from it, the network is an
oracle `String → Except String FetchResp`, and the WHATWG URL parser is
modelled on its hierarchical (`scheme://host/path?query#hash`) fragment in
lower-case ASCII form without percent-encoding or dot-segment handling,
which covers every URL shape the crawler code manipulates.
-/

namespace Crawler

/-- Character-list test: `p` occurs at the start of `l`. -/
def hasPre : List Char → List Char → Bool
  | [], _ => true
  | _ :: _, [] => false
  | a :: as, b :: bs => a == b && hasPre as bs

/-- Character-list test: `p` occurs somewhere inside `l`. -/
def hasSub (p : List Char) : List Char → Bool
  | [] => p.isEmpty
  | c :: cs => hasPre p (c :: cs) || hasSub p cs

/-- Substring test on strings; models a JavaScript regex made of plain
literal alternatives tested with `.test(src)` (case-sensitive). -/
def containsStr (pat s : String) : Bool :=
  hasSub pat.toList s.toList

/-- JavaScript whitespace for `String.prototype.trim` (the ASCII cases). -/
def isWsChar (c : Char) : Bool :=
  c == ' ' || c == '\t' || c == '\n' || c == '\r'

/-- Models JavaScript `s.trim()`: strip whitespace from both ends. -/
def jsTrim (s : String) : String :=
  String.mk (((s.toList.dropWhile isWsChar).reverse.dropWhile isWsChar).reverse)

/-- Models JavaScript `x || d` where `x : string | undefined`: `undefined`
and the empty string are falsy, so both fall through to the default. -/
def jsOrStr (o : Option String) (d : String) : String :=
  match o with
  | none => d
  | some s => if s = "" then d else s

/-- Models `if (header) technologies.push(header)`: a present, non-empty
header contributes its literal value, anything falsy contributes nothing. -/
def truthyList (o : Option String) : List String :=
  match o with
  | none => []
  | some s => if s = "" then [] else [s]

/-- Accumulator pass for `dedupFirst`. -/
def dedupGo (seen : List String) : List String → List String
  | [] => []
  | x :: xs => if seen.contains x then dedupGo seen xs else x :: dedupGo (x :: seen) xs

/-- Models `[...new Set(list)]`: drop duplicates, keeping the first
occurrence of each element, in order. -/
def dedupFirst (l : List String) : List String :=
  dedupGo [] l

/-- Pass for `collapseSlashes`; the flag records whether the previously
kept character was a slash. -/
def collapseGo : Bool → List Char → List Char
  | _, [] => []
  | prev, c :: rest =>
    if c == '/' then
      (if prev then collapseGo true rest else '/' :: collapseGo true rest)
    else c :: collapseGo false rest

/-- Models the path normalization of crawler.js line 151
(`parsed.pathname.replace` with the global one-or-more-slashes regex):
every run of consecutive slashes is replaced by a single slash. -/
def collapseSlashes (s : String) : String :=
  String.mk (collapseGo false s.toList)

/-- Decidable test for a duplicated slash (two adjacent `/` characters). -/
def hasDupSlash : List Char → Bool
  | [] => false
  | [_] => false
  | a :: b :: rest => (a == '/' && b == '/') || hasDupSlash (b :: rest)

/-- Model of a Node `URL` object, restricted to the components the crawler
reads and writes: `protocol` (with trailing colon), `host` (authority,
port included), `hostname`, `pathname`, `search` (with leading `?` or
empty) and `hash` (with leading `#` or empty). -/
structure JsUrl where
  protocol : String
  host : String
  hostname : String
  pathname : String
  search : String
  hash : String
deriving DecidableEq

/-- Serialization of a `JsUrl`, as Node's `url.href` getter produces it for
hierarchical URLs. -/
def JsUrl.href (u : JsUrl) : String :=
  u.protocol ++ "//" ++ u.host ++ u.pathname ++ u.search ++ u.hash

/-- Stops the authority component: `/`, `?` or `#`. -/
def notAuthEnd (c : Char) : Bool :=
  !(c == '/') && !(c == '?') && !(c == '#')

/-- Stops the path component: `?` or `#`. -/
def notPathEnd (c : Char) : Bool :=
  !(c == '?') && !(c == '#')

/-- Stops the query component: `#`. -/
def notHash (c : Char) : Bool :=
  !(c == '#')

/-- Models `new URL(s)` for absolute hierarchical URLs
(`scheme://authority/path?query#hash`): returns `none` (the constructor
throws) when the scheme or authority is missing or empty. -/
def parseUrl (s : String) : Option JsUrl :=
  let cs := s.toList
  let schCs := cs.takeWhile (fun c => !(c == ':'))
  let rest := cs.drop schCs.length
  if schCs.isEmpty || !(schCs.all Char.isAlpha) then none
  else
    match rest with
    | ':' :: '/' :: '/' :: r2 =>
      let authCs := r2.takeWhile notAuthEnd
      let r3 := r2.drop authCs.length
      if authCs.isEmpty then none
      else
        let pathCs := r3.takeWhile notPathEnd
        let r4 := r3.drop pathCs.length
        let qCs := r4.takeWhile notHash
        let hCs := r4.drop qCs.length
        some { protocol := String.mk schCs ++ ":",
               host := String.mk authCs,
               hostname := String.mk (authCs.takeWhile (fun c => !(c == ':'))),
               pathname := if pathCs.isEmpty then "/" else String.mk pathCs,
               search := String.mk qCs,
               hash := String.mk hCs }
    | _ => none

/-- A reference has a scheme when it starts with one or more letters
followed by a colon. -/
def hasScheme (s : String) : Bool :=
  let schCs := s.toList.takeWhile (fun c => !(c == ':'))
  !schCs.isEmpty && schCs.all Char.isAlpha
    && !(s.toList.drop schCs.length).isEmpty

/-- Directory of a path: everything up to and including the last slash. -/
def dirOf (p : String) : String :=
  String.mk ((p.toList.reverse.dropWhile (fun c => !(c == '/'))).reverse)

/-- Split a scheme-less reference into path, query and fragment parts. -/
def splitRef (cs : List Char) : List Char × List Char × List Char :=
  let pCs := cs.takeWhile notPathEnd
  let r := cs.drop pCs.length
  let qCs := r.takeWhile notHash
  (pCs, qCs, r.drop qCs.length)

/-- Models `new URL(href, base)`: absolute references are parsed outright,
protocol-relative, root-relative, query-only, fragment-only and
path-relative references are resolved against `base`
(hierarchical fragment of WHATWG resolution, without dot segments). -/
def resolve (base : JsUrl) (href : String) : Option JsUrl :=
  if hasScheme href then parseUrl href
  else
    match href.toList with
    | [] => some { base with hash := "" }
    | '/' :: '/' :: _ => parseUrl (base.protocol ++ href)
    | '#' :: _ => some { base with hash := href }
    | '?' :: _ =>
      let qCs := href.toList.takeWhile notHash
      some { base with
             search := String.mk qCs,
             hash := String.mk (href.toList.drop qCs.length) }
    | '/' :: _ =>
      let t := splitRef href.toList
      some { base with
             pathname := String.mk t.1,
             search := String.mk t.2.1, hash := String.mk t.2.2 }
    | _ =>
      let t := splitRef href.toList
      some { base with
             pathname := dirOf base.pathname ++ String.mk t.1,
             search := String.mk t.2.1, hash := String.mk t.2.2 }

/-- Translation of `CrawlerService.validateUrl` (crawler.js lines 141-157):
parse the URL, force `http:` to `https:`, collapse duplicate slashes in the
path, and return the parsed object; `null` (here `none`) on parse failure.
Nothing in the source touches the fragment. -/
def validateUrl (url : String) : Option JsUrl :=
  match parseUrl url with
  | none => none
  | some parsed =>
    let p1 := if parsed.protocol = "http:" then { parsed with protocol := "https:" } else parsed
    some { p1 with pathname := collapseSlashes p1.pathname }

/-- An anchor element as the link extractor reads it: its `href` attribute
(absent when the attribute is missing) and its text content. -/
structure Anchor where
  href : Option String
  text : String
deriving DecidableEq

/-- Model of a cheerio-parsed document, as the record of the query results
the crawler reads from it: the text of the `title` element (absent when
there is none), the `content`/`href` attributes of the meta/link tags it
selects, the `src` attributes of all `script` elements in document order,
and all anchor elements in document order. -/
structure ParsedDoc where
  titleText : Option String
  metaDescription : Option String
  metaKeywords : Option String
  linkCanonical : Option String
  metaViewport : Option String
  ogTitle : Option String
  ogDescription : Option String
  ogImage : Option String
  scripts : List (Option String)
  anchors : List Anchor
deriving DecidableEq

/-- The metadata record built by `extractMetadata` (crawler.js 162-173),
with the source's field names. -/
structure PageMetadata where
  title : String
  description : String
  keywords : String
  canonical : String
  viewport : String
  ogTitle : String
  ogDescription : String
  ogImage : String
deriving DecidableEq

/-- Translation of `CrawlerService.extractMetadata` (crawler.js 162-173).
Each absent attribute falls to its JavaScript default: the empty string for
every field except `canonical`, which falls back to `parsedUrl.href`. -/
def extractMetadata (doc : ParsedDoc) (pageHref : String) : PageMetadata :=
  { title := jsTrim (doc.titleText.getD ""),
    description := jsOrStr doc.metaDescription "",
    keywords := jsOrStr doc.metaKeywords "",
    canonical := jsOrStr doc.linkCanonical pageHref,
    viewport := jsOrStr doc.metaViewport "",
    ogTitle := jsOrStr doc.ogTitle "",
    ogDescription := jsOrStr doc.ogDescription "",
    ogImage := jsOrStr doc.ogImage "" }

/-- A link record as `extractLinks` pushes it (crawler.js 229-239). -/
structure LinkRef where
  url : String
  text : String
  external : Bool
deriving DecidableEq

/-- The base the source resolves every href against (crawler.js line 220):
the string built from `parsedUrl.protocol` and `parsedUrl.host` parses back
to the page's origin, whose path is `/` and whose query and fragment are
empty. -/
def originOf (u : JsUrl) : JsUrl :=
  { protocol := u.protocol, host := u.host, hostname := u.hostname,
    pathname := "/", search := "", hash := "" }

/-- The per-anchor loop of `extractLinks` (crawler.js 222-244): skip
anchors with a falsy href, resolve against the base, silently skip
resolution failures (the source's empty catch), and push a record whose
`external` flag compares the resolved hostname with the page hostname. -/
def extractLinksGo (base : JsUrl) (pageHost : String) : List Anchor → List LinkRef
  | [] => []
  | a :: rest =>
    match a.href with
    | none => extractLinksGo base pageHost rest
    | some h =>
      if h = "" then extractLinksGo base pageHost rest
      else
        match resolve base h with
        | none => extractLinksGo base pageHost rest
        | some u =>
          if u.hostname = pageHost then
            { url := u.href, text := jsTrim a.text, external := false }
              :: extractLinksGo base pageHost rest
          else
            { url := u.href, text := jsTrim a.text, external := true }
              :: extractLinksGo base pageHost rest

/-- Translation of `CrawlerService.extractLinks` (crawler.js 218-247). -/
def extractLinks (doc : ParsedDoc) (parsedUrl : JsUrl) : List LinkRef :=
  extractLinksGo (originOf parsedUrl) parsedUrl.hostname doc.anchors

/-- What a single anchor contributes to `extractLinks`, written out
directly: resolve the href against the page's origin and tag it external
when the hostnames differ.  Used to characterize `extractLinks`. -/
def resolveAnchor (parsedUrl : JsUrl) (a : Anchor) : Option LinkRef :=
  match a.href with
  | none => none
  | some h =>
    if h = "" then none
    else
      match resolve (originOf parsedUrl) h with
      | none => none
      | some u =>
        some { url := u.href, text := jsTrim a.text,
               external := decide (u.hostname ≠ parsedUrl.hostname) }

/-- The two response headers `detectTechnologies` reads. -/
structure RespHeaders where
  server : Option String
  xPoweredBy : Option String
deriving DecidableEq

/-- A successful axios response: status, the headers the crawler reads, and
the body (represented by its parse result; `crawlWebsite` and
`detectTechnologies` each run cheerio on it). -/
structure FetchResp where
  status : Nat
  headers : RespHeaders
  body : ParsedDoc
deriving DecidableEq

/-- The framework-signature table of crawler.js 196-201, applied to one
script `src` in `Object.entries` order; each regex is an alternation of
literal substrings, so a match is a substring test. -/
def matchSignatures (src : String) : List String :=
  (if containsStr "react" src then ["React"] else [])
    ++ (if containsStr "vue" src then ["Vue"] else [])
    ++ (if containsStr "angular" src then ["Angular"] else [])
    ++ (if containsStr "jquery" src then ["jQuery"] else [])

/-- Translation of `CrawlerService.detectTechnologies` (crawler.js
178-213): push the `server` and `x-powered-by` header values when truthy,
re-parse the body (the second cheerio.load of a visit), push every
signature match of every script `src`, and collapse duplicates keeping
first occurrences. -/
def detectTechnologies (response : FetchResp) : List String :=
  let techs2 := truthyList response.headers.server
    ++ truthyList response.headers.xPoweredBy
  let doc := response.body
  dedupFirst (techs2 ++ doc.scripts.foldr (fun sc acc => matchSignatures (sc.getD "") ++ acc) [])

/-- Number of cheerio.load calls `detectTechnologies` performs: exactly one
(crawler.js line 193). -/
def detectTechnologiesLoads : Nat := 1

/-- The nested `data` object of a crawl result (crawler.js 60-64). -/
structure CrawlData where
  metadata : PageMetadata
  technologies : List String
  links : List LinkRef
deriving DecidableEq

/-- The value `crawlWebsite` returns on success (crawler.js 57-65). -/
structure CrawlResult where
  url : String
  status : Nat
  data : CrawlData
deriving DecidableEq

/-- Translation of `CrawlerService.crawlWebsite` (crawler.js 31-70),
instrumented with the number of cheerio.load invocations the call performs
(second component).  The network is the oracle `fetch`; axios rejections
(timeouts, connection failures, HTTP error statuses) are its `error`
values.  The rate-limit step of line 40 resolves immediately without
touching any counter, because the limiter middleware invoked with empty
request objects always takes its exception-recovery branch and calls
`next()` (see the middleware model below); it is therefore a no-op here.
Every failure is caught and rethrown with the source's wrapper message. -/
def crawlWebsiteAux (fetch : String → Except String FetchResp) (url : String) :
    Except String CrawlResult × Nat :=
  match validateUrl url with
  | none => (.error "爬取失败: 无效的URL格式", 0)
  | some parsed =>
    match fetch parsed.href with
    | .error e => (.error ("爬取失败: " ++ e), 0)
    | .ok response =>
      let doc := response.body
      let metadata := extractMetadata doc parsed.href
      (.ok { url := parsed.href,
             status := response.status,
             data := { metadata := metadata,
                       technologies := detectTechnologies response,
                       links := extractLinks doc parsed } },
       1 + detectTechnologiesLoads)

/-- The result of `crawlWebsite`, without the instrumentation. -/
def crawlWebsite (fetch : String → Except String FetchResp) (url : String) :
    Except String CrawlResult :=
  (crawlWebsiteAux fetch url).1

/-- Translation of `CrawlerService.batchCrawlWebsites` (crawler.js 77-97):
crawl each URL in order, each in its own try/catch; successes are pushed to
the `success` list, failures to the `failed` list as `(url, message)`
pairs. -/
def batchCrawlWebsites (fetch : String → Except String FetchResp) :
    List String → List CrawlResult × List (String × String)
  | [] => ([], [])
  | url :: rest =>
    let r := batchCrawlWebsites fetch rest
    match crawlWebsite fetch url with
    | .ok result => (result :: r.1, r.2)
    | .error e => (r.1, (url, e) :: r.2)

/-- The fields of a Website document that `updateWebsiteData` touches
(models/Website.js; `lastCrawledAt` is a wall-clock timestamp and is
outside the model). -/
structure WebsiteRec where
  domain : String
  technologies : List String
  metadata : Option PageMetadata
  lastCrawlStatus : String
  crawlError : Option String
deriving DecidableEq

/-- Translation of `CrawlerService.updateWebsiteData` (crawler.js
103-136) on a record that exists: crawl `website.domain`; on success
assign `technologies`, `metadata` and status `success` and save; on any
failure set status `failed`, record the error message, and rethrow.  The
assignment on line 113 overwrites the stored `technologies` array with the
crawl's array. -/
def updateWebsiteData (fetch : String → Except String FetchResp)
    (website : WebsiteRec) : WebsiteRec × Except String CrawlData :=
  match crawlWebsite fetch website.domain with
  | .ok result =>
    ({ website with
       technologies := result.data.technologies,
       metadata := some result.data.metadata,
       lastCrawlStatus := "success" },
     .ok result.data)
  | .error e =>
    ({ website with lastCrawlStatus := "failed", crawlError := some e },
     .error e)

/-- The loop of `CrawlerService.deepCrawlWebsite` (crawler.js 261-293),
instrumented with two traces the source sends to side channels: `errLog`
collects the `(url, message)` pairs the catch block hands to
`logger.error` (line 288), and `att` records every `crawlWebsite` call the
loop makes as `(url, succeeded)`.  The loop itself is the source's `while`
over the queue: a popped entry beyond `maxDepth` or already visited is
discarded; a successful crawl adds the url to the visited set, appends the
result, and enqueues its not-yet-visited internal links at `depth + 1`; a
failed crawl is only logged, and in particular does NOT add the url to the
visited set.  Fuel makes the recursion structural; `none` means the fuel
ran out. -/
def deepCrawlGo (fetch : String → Except String FetchResp) (maxDepth : Nat) :
    Nat → List String → List CrawlResult → List (String × String) →
    List (String × Bool) → List (String × Nat) →
    Option (List CrawlResult × List (String × String) × List (String × Bool))
  | 0, _, _, _, _, _ => none
  | _ + 1, _, results, errLog, att, [] => some (results, errLog, att)
  | fuel + 1, visited, results, errLog, att, (url, depth) :: queue =>
    if decide (maxDepth < depth) || visited.contains url then
      deepCrawlGo fetch maxDepth fuel visited results errLog att queue
    else
      match crawlWebsite fetch url with
      | .error e =>
        deepCrawlGo fetch maxDepth fuel visited results
          (errLog ++ [(url, e)]) (att ++ [(url, false)]) queue
      | .ok result =>
        let visited' := visited ++ [url]
        let internal := result.data.links.filter (fun l => !l.external)
        let fresh := internal.filter (fun l => !visited'.contains l.url)
        deepCrawlGo fetch maxDepth fuel visited' (results ++ [result]) errLog
          (att ++ [(url, true)])
          (queue ++ fresh.map (fun l => (l.url, depth + 1)))

/-- Translation of `CrawlerService.deepCrawlWebsite` (crawler.js 261-293):
the function's return value is the `results` array alone; the error log
and the call trace are side channels, not returned by the source. -/
def deepCrawlWebsite (fetch : String → Except String FetchResp)
    (baseUrl : String) (maxDepth fuel : Nat) : Option (List CrawlResult) :=
  (deepCrawlGo fetch maxDepth fuel [] [] [] [] [(baseUrl, 0)]).map (fun t => t.1)

/-- The same run with its side channels exposed:
`(results, error log, crawl attempts)`. -/
def deepCrawlInstr (fetch : String → Except String FetchResp)
    (baseUrl : String) (maxDepth fuel : Nat) :
    Option (List CrawlResult × List (String × String) × List (String × Bool)) :=
  deepCrawlGo fetch maxDepth fuel [] [] [] [] [(baseUrl, 0)]

/-- The URLs handed to the fetcher (axios) during a deep-crawl run, in
order: `crawlWebsite` invokes the fetcher exactly once per call, on the
normalized href, and not at all when URL validation fails. -/
def deepCrawlFetchTrace (fetch : String → Except String FetchResp)
    (baseUrl : String) (maxDepth fuel : Nat) : Option (List String) :=
  (deepCrawlInstr fetch baseUrl maxDepth fuel).map
    (fun out => out.2.2.filterMap (fun p => (validateUrl p.1).map JsUrl.href))

/-- Number of successful crawl attempts of the exact URL string `u` in an
attempt trace. -/
def succCount (att : List (String × Bool)) (u : String) : Nat :=
  (att.filter (fun p => decide (p.1 = u) && p.2)).length

/-- Association-list lookup (first match). -/
def assocFind {α : Type} (k : String) : List (String × α) → Option α
  | [] => none
  | (k', v) :: rest => if k = k' then some v else assocFind k rest

/-- A static site as a finite map from URL to response: URLs outside the
map are unreachable (connection refused). -/
def fetchOf (graph : List (String × FetchResp)) : String → Except String FetchResp :=
  fun u =>
    match assocFind u graph with
    | some r => Except.ok r
    | none => Except.error "connect ECONNREFUSED"

/-- Largest anchor count of any page of a static site; bounds the number
of links any crawl of the site can discover on one page. -/
def maxAnchors (graph : List (String × FetchResp)) : Nat :=
  graph.foldr (fun p m => max p.2.body.anchors.length m) 0

/-- Weight of a frontier entry at depth `d` for the termination measure:
entries at small depth may spawn up to `B` entries one level deeper, so
weights shrink geometrically with depth. -/
def linkWeight (maxDepth B d : Nat) : Nat :=
  (B + 1) ^ (maxDepth + 2 - d)

/-- Termination measure of a frontier queue: total weight of its
entries. -/
def qMeasure (maxDepth B : Nat) (queue : List (String × Nat)) : Nat :=
  (queue.map (fun e => linkWeight maxDepth B e.2)).sum

/-- Limiter options after the defaults merge (rateLimit.js 9-16, 24),
restricted to the fields the middleware body reads. -/
structure LimiterOptions where
  windowMs : Nat
  max : Nat
  skipSuccessfulRequests : Bool
  skipFailedRequests : Bool

/-- One client's entry in the limiter's request map (rateLimit.js 38-41). -/
structure ClientRecord where
  count : Nat
  startTime : Nat
deriving DecidableEq

/-- The limiter's `requests` map, keyed by client identifier. -/
def LimiterState : Type := List (String × ClientRecord)

/-- The `connection` object of a request, as `getClientIdentifier`
reads it. -/
structure JsConn where
  remoteAddress : Option String
deriving DecidableEq

/-- A request object as the middleware reads it; the crawler passes the
empty object literal, in which every one of these properties is
undefined. -/
structure JsReq where
  ip : Option String
  headers : Option (List (String × String))
  connection : Option JsConn
  method : Option String
deriving DecidableEq

/-- The empty object literal `{}` the crawler passes for `req`
(crawler.js line 254). -/
def emptyReq : JsReq :=
  { ip := none, headers := none, connection := none, method := none }

/-- What the middleware does with a request: call `next()` or answer 429
without calling `next()`. -/
inductive MwOutcome where
  | next
  | rejected
deriving DecidableEq

/-- Replace-or-append update of an association list, as `Map.set`. -/
def assocSet {α : Type} (k : String) (v : α) : List (String × α) → List (String × α)
  | [] => [(k, v)]
  | (k', v') :: rest => if k = k' then (k, v) :: rest else (k', v') :: assocSet k v rest

/-- Tail of the client-identifier or-chain:
`req.connection.remoteAddress || 'unknown'`. -/
def getClientIdentifierConn (req : JsReq) : Except String String :=
  match req.connection with
  | none => Except.error "TypeError: cannot read properties of undefined"
  | some c =>
    match c.remoteAddress with
    | some a => if a = "" then Except.ok "unknown" else Except.ok a
    | none => Except.ok "unknown"

/-- Middle of the or-chain, from `req.headers` on. -/
def getClientIdentifierHeaders (req : JsReq) : Except String String :=
  match req.headers with
  | none => Except.error "TypeError: cannot read properties of undefined"
  | some hs =>
    match assocFind "x-forwarded-for" hs with
    | some v =>
      if v = "" then getClientIdentifierConn req else Except.ok v
    | none => getClientIdentifierConn req

/-- Translation of `RateLimiter.getClientIdentifier` (rateLimit.js 93-99):
the JavaScript or-chain over `req.ip`, `req.headers` indexed at the
forwarded-for header, `req.connection.remoteAddress` and the literal
fallback.  Indexing `req.headers` or dereferencing `req.connection` when
the property is undefined throws, modelled as `error`. -/
def getClientIdentifier (req : JsReq) : Except String String :=
  match req.ip with
  | some s =>
    if s = "" then getClientIdentifierHeaders req else Except.ok s
  | none => getClientIdentifierHeaders req

/-- Translation of `RateLimiter.shouldSkip` (rateLimit.js 104-120).  The
source's conditions mention `res`, which is not in scope there; the
reference only evaluates (and throws) when a skip flag is set and the
short-circuit reaches it. -/
def shouldSkip (options : LimiterOptions) (req : JsReq) : Except String Bool :=
  if options.skipSuccessfulRequests && (req.method == some "GET") then
    Except.error "ReferenceError: res is not defined"
  else if options.skipFailedRequests then
    Except.error "ReferenceError: res is not defined"
  else
    Except.ok false

/-- A `res.setHeader` call: throws when `res` is the empty object literal
(modelled by `res = false`). -/
def resSetHeader (res : Bool) : Except String Unit :=
  if res then Except.ok () else Except.error "TypeError: res.setHeader is not a function"

/-- The try-block of the middleware `createLimiter` returns (rateLimit.js
26-87), threading the `requests` map: identify the client, check the skip
rules, reset the window if elapsed, reject over capacity, otherwise count
and pass through.  The state component carries the mutations made before
any throw. -/
def createLimiterBody (options : LimiterOptions) (now : Nat) (req : JsReq)
    (res : Bool) (st : LimiterState) : Except String MwOutcome × LimiterState :=
  match getClientIdentifier req with
  | .error e => (.error e, st)
  | .ok clientId =>
    match shouldSkip options req with
    | .error e => (.error e, st)
    | .ok true => (.ok .next, st)
    | .ok false =>
      let clientRecord := (assocFind clientId st).getD { count := 0, startTime := now }
      if options.windowMs < now - clientRecord.startTime then
        (.ok .next, assocSet clientId { count := 1, startTime := now } st)
      else if options.max ≤ clientRecord.count then
        match resSetHeader res with
        | .error e => (.error e, st)
        | .ok _ => (.ok .rejected, st)
      else
        let st' := assocSet clientId
          { count := clientRecord.count + 1, startTime := clientRecord.startTime } st
        match resSetHeader res with
        | .error e => (.error e, st')
        | .ok _ => (.ok .next, st')

/-- The middleware with its catch block (rateLimit.js 83-86): any throw in
the body is logged and the request is passed through with `next()`. -/
def createLimiter (options : LimiterOptions) (now : Nat) (req : JsReq)
    (res : Bool) (st : LimiterState) : MwOutcome × LimiterState :=
  match createLimiterBody options now req res st with
  | (.error _, st') => (.next, st')
  | (.ok o, st') => (o, st')

/-- The options the crawler's constructor passes (crawler.js 20-23) merged
over the middleware defaults: one-second window, 1000 requests, no skip
rules. -/
def crawlerLimiterOptions : LimiterOptions :=
  { windowMs := 1000, max := 1000,
    skipSuccessfulRequests := false, skipFailedRequests := false }

/-- Translation of `CrawlerService.applyRateLimit` (crawler.js 252-256)
under the intended limiter wiring: invoke the middleware with empty
request and response objects and resolve when `next()` runs. -/
def applyRateLimit (now : Nat) (st : LimiterState) : MwOutcome × LimiterState :=
  createLimiter crawlerLimiterOptions now emptyReq false st

/-- `K` consecutive `applyRateLimit` acquisitions, collecting each one's
outcome. -/
def applyRateLimitRun (now : Nat) (st : LimiterState) : Nat → List MwOutcome × LimiterState
  | 0 => ([], st)
  | k + 1 =>
    let r := applyRateLimit now st
    let rest := applyRateLimitRun now r.2 k
    (r.1 :: rest.1, rest.2)

/-- The property names assigned on the rateLimit module's export object
(rateLimit.js 145-159); the default export is the factory function itself
(line 142), and no property named `rateLimit` is ever assigned. -/
def rateLimitNamedProps : List String := ["strict", "api", "auth"]

/-- Models `const ... = require('../middlewares/rateLimit')` with a
destructuring pattern asking for the property `rateLimit` (crawler.js
line 7): property lookup on the export object. -/
def crawlerImportHasRateLimit : Bool :=
  rateLimitNamedProps.contains "rateLimit"

/-- The `CrawlerService` constructor's limiter initialization (crawler.js
19-23): call the imported `rateLimit` binding.  When the binding is
undefined — which `crawlerImportHasRateLimit` decides — the call throws,
so constructing the service (and with it `module.exports`, line 296)
fails before any acquire can be issued. -/
def crawlerServiceInit :
    Except String (Nat → JsReq → Bool → LimiterState → MwOutcome × LimiterState) :=
  if crawlerImportHasRateLimit then Except.ok (createLimiter crawlerLimiterOptions)
  else Except.error "TypeError: rateLimit is not a function"

/-- A parsed document with every queried tag absent. -/
def docEmpty : ParsedDoc :=
  { titleText := none, metaDescription := none, metaKeywords := none,
    linkCanonical := none, metaViewport := none, ogTitle := none,
    ogDescription := none, ogImage := none, scripts := [], anchors := [] }

/-- A document with some queried tags present and others absent: the title
and og:image exist, everything else is missing. -/
def docMixed : ParsedDoc :=
  { docEmpty with titleText := some " Hello ",
                  ogImage := some "https://ex.com/i.png" }

/-- A page whose only script reference is a React bundle. -/
def docReact : ParsedDoc :=
  { docEmpty with scripts := [some "/static/js/react.production.min.js"] }

/-- A response revealing nginx and React. -/
def respTechTwo : FetchResp :=
  { status := 200, headers := { server := some "nginx", xPoweredBy := none },
    body := docReact }

/-- A response revealing only nginx. -/
def respTechOne : FetchResp :=
  { status := 200, headers := { server := some "nginx", xPoweredBy := none },
    body := docEmpty }

/-- A network where every URL serves `respTechTwo`. -/
def fetchTechTwo : String → Except String FetchResp := fun _ => Except.ok respTechTwo

/-- A network where every URL serves `respTechOne`. -/
def fetchTechOne : String → Except String FetchResp := fun _ => Except.ok respTechOne

/-- A website record before any crawl. -/
def websiteRec0 : WebsiteRec :=
  { domain := "https://example.com", technologies := [], metadata := none,
    lastCrawlStatus := "success", crawlError := none }

/-- A network where every fetch times out. -/
def fetchFailAll : String → Except String FetchResp :=
  fun _ => Except.error "timeout of 10000ms exceeded"

/-- Page A of the revisit scenario: internal links to `/b` and `/c`. -/
def docLinksBC : ParsedDoc :=
  { docEmpty with anchors := [{ href := some "/b", text := "B" },
                              { href := some "/c", text := "C" }] }

/-- Page C of the revisit scenario: one internal link back to `/b`. -/
def docLinkB : ParsedDoc :=
  { docEmpty with anchors := [{ href := some "/b", text := "B" }] }

/-- A static site where the seed and `/c` respond but `/b` always times
out, and `/b` is linked both from the seed and from `/c`. -/
def fetchSiteA : String → Except String FetchResp := fun u =>
  if u = "https://a.example/" then
    Except.ok { status := 200, headers := { server := none, xPoweredBy := none },
                body := docLinksBC }
  else if u = "https://a.example/c" then
    Except.ok { status := 200, headers := { server := none, xPoweredBy := none },
                body := docLinkB }
  else
    Except.error "timeout of 10000ms exceeded"

/-- A network where exactly `https://bad.example/` is unreachable. -/
def fetchBatch : String → Except String FetchResp := fun u =>
  if u = "https://bad.example/" then Except.error "connect ECONNREFUSED"
  else Except.ok respTechOne

/-- The page URL of the relative-link scenario: a document inside the
`/dir/` directory. -/
def pageDir : JsUrl :=
  { protocol := "https:", host := "ex.com", hostname := "ex.com",
    pathname := "/dir/page.html", search := "", hash := "" }

/-- A document whose only anchor is the path-relative reference
`sub.html`. -/
def docRelLink : ParsedDoc :=
  { docEmpty with anchors := [{ href := some "sub.html", text := "s" }] }

/-- A one-page static site used to witness termination. -/
def graphOne : List (String × FetchResp) :=
  [("https://g.example/",
    { status := 200, headers := { server := none, xPoweredBy := none },
      body := { docEmpty with anchors := [{ href := some "/p", text := "p" }] } })]

theorem collapseGo_true_head (cs : List Char) :
    ∀ c l, collapseGo true cs = c :: l → c ≠ '/' := by
  induction cs with
  | nil => intro c l h; simp [collapseGo] at h
  | cons a rest ih =>
    intro c l h
    by_cases ha : a = '/'
    · subst ha
      simp only [collapseGo, beq_self_eq_true, if_pos, if_true] at h
      exact ih c l h
    · simp only [collapseGo, beq_iff_eq, ha, if_neg, if_false, List.cons.injEq] at h
      exact h.1 ▸ ha

theorem hasDupSlash_collapseGo (cs : List Char) :
    ∀ prev, hasDupSlash (collapseGo prev cs) = false := by
  induction cs with
  | nil => intro _; rfl
  | cons a rest ih =>
    intro prev
    by_cases ha : a = '/'
    · subst ha
      cases prev with
      | true =>
        simp only [collapseGo, beq_self_eq_true, if_pos, if_true]
        exact ih true
      | false =>
        simp only [collapseGo, beq_self_eq_true, if_pos, if_false]
        cases hcg : collapseGo true rest with
        | nil => rfl
        | cons c l =>
          have hc : c ≠ '/' := collapseGo_true_head rest c l hcg
          have hrest : hasDupSlash (c :: l) = false := hcg ▸ ih true
          simp [hasDupSlash, hc, hrest]
    · have hgo : collapseGo prev (a :: rest) = a :: collapseGo false rest := by
        simp [collapseGo, ha]
      rw [hgo]
      cases hcg : collapseGo false rest with
      | nil => rfl
      | cons c l =>
        have hrest : hasDupSlash (c :: l) = false := hcg ▸ ih false
        simp [hasDupSlash, ha, hrest]

theorem hasDupSlash_collapseSlashes (s : String) :
    hasDupSlash (collapseSlashes s).toList = false :=
  hasDupSlash_collapseGo s.toList false

/-- Claim C6, counterexample.  The claim says a URL accepted by
normalization carries no fragment; the source's `validateUrl` leaves the
fragment of `https://example.com/a#frag` in place, so the normalized URL
still carries `#frag`. -/
theorem c6_counterexample :
    validateUrl "https://example.com/a#frag" =
      some { protocol := "https:", host := "example.com",
             hostname := "example.com", pathname := "/a", search := "",
             hash := "#frag" } ∧
    (validateUrl "https://example.com/a#frag").map JsUrl.hash ≠ some "" := by
  exact ⟨rfl, by decide⟩

/-- Claim C6, amended.  For every URL accepted by normalization, the scheme
is forced to `https:` exactly when the original scheme was `http:`, the
path is slash-collapsed and contains no duplicate slashes, and the host,
query and fragment are preserved unchanged — in particular the fragment is
NOT removed. -/
theorem c6_amended (s : String) (orig u : JsUrl)
    (h1 : parseUrl s = some orig) (h2 : validateUrl s = some u) :
    (orig.protocol = "http:" → u.protocol = "https:") ∧
    (orig.protocol ≠ "http:" → u.protocol = orig.protocol) ∧
    u.pathname = collapseSlashes orig.pathname ∧
    hasDupSlash u.pathname.toList = false ∧
    u.host = orig.host ∧ u.search = orig.search ∧ u.hash = orig.hash := by
  unfold validateUrl at h2
  rw [h1] at h2
  by_cases hp : orig.protocol = "http:"
  · simp only [hp, if_pos, Option.some.injEq] at h2
    subst h2
    refine ⟨fun _ => rfl, fun hc => absurd hp hc, rfl, hasDupSlash_collapseSlashes _, rfl, rfl, rfl⟩
  · simp only [hp, if_neg, if_false, Option.some.injEq] at h2
    subst h2
    exact ⟨fun hc => absurd hc hp, fun _ => rfl, rfl, hasDupSlash_collapseSlashes _, rfl, rfl, rfl⟩

/-- Claim C6, witness.  The amended statement instantiated on
`http://example.com//x//y`: the scheme is upgraded, the duplicate slashes
collapse, and the (empty) fragment is preserved. -/
theorem c6_amended_witness :
    (parseUrl "http://example.com//x//y" =
      some { protocol := "http:", host := "example.com",
             hostname := "example.com", pathname := "//x//y", search := "",
             hash := "" }) ∧
    (validateUrl "http://example.com//x//y" =
      some { protocol := "https:", host := "example.com",
             hostname := "example.com", pathname := "/x/y", search := "",
             hash := "" }) ∧
    (({ protocol := "http:", host := "example.com", hostname := "example.com",
        pathname := "//x//y", search := "", hash := "" } : JsUrl).protocol = "http:" →
      ({ protocol := "https:", host := "example.com", hostname := "example.com",
         pathname := "/x/y", search := "", hash := "" } : JsUrl).protocol = "https:") := by
  refine ⟨rfl, rfl, ?_⟩
  exact (c6_amended "http://example.com//x//y" _ _ rfl rfl).1

/-- Claim C7, counterexample.  The claim says every metadata field whose
source tag is absent is the empty string and never the page's own URL; on
a document with no tags at all, `extractMetadata` sets `canonical` to the
page URL, which is not the empty string. -/
theorem c7_counterexample :
    extractMetadata docEmpty "https://example.com/" =
      { title := "", description := "", keywords := "",
        canonical := "https://example.com/", viewport := "", ogTitle := "",
        ogDescription := "", ogImage := "" } ∧
    (extractMetadata docEmpty "https://example.com/").canonical ≠ "" := by
  exact ⟨rfl, by decide⟩

/-- Claim C7, amended.  Metadata extraction is a total function and, on
any parsed document, every field whose source tag is absent is the empty
string — except `canonical`, which falls back to the page's own URL (never
a null/undefined sentinel).  Each field's default is independent of the
presence of the other tags. -/
theorem c7_amended (doc : ParsedDoc) (pageHref : String) :
    (doc.titleText = none → (extractMetadata doc pageHref).title = "") ∧
    (doc.metaDescription = none → (extractMetadata doc pageHref).description = "") ∧
    (doc.metaKeywords = none → (extractMetadata doc pageHref).keywords = "") ∧
    (doc.linkCanonical = none → (extractMetadata doc pageHref).canonical = pageHref) ∧
    (doc.metaViewport = none → (extractMetadata doc pageHref).viewport = "") ∧
    (doc.ogTitle = none → (extractMetadata doc pageHref).ogTitle = "") ∧
    (doc.ogDescription = none → (extractMetadata doc pageHref).ogDescription = "") ∧
    (doc.ogImage = none → (extractMetadata doc pageHref).ogImage = "") := by
  refine ⟨fun h => ?_, fun h => ?_, fun h => ?_, fun h => ?_, fun h => ?_,
    fun h => ?_, fun h => ?_, fun h => ?_⟩ <;>
    · unfold extractMetadata
      rw [h]
      rfl

/-- Claim C7, witness.  The amended statement instantiated on a document
where the title and og:image tags are present while the description and
canonical tags are absent: the absent fields take their defaults
independently of the present ones. -/
theorem c7_amended_witness :
    docMixed.metaDescription = none ∧
    (extractMetadata docMixed "https://example.com/").description = "" ∧
    docMixed.linkCanonical = none ∧
    (extractMetadata docMixed "https://example.com/").canonical = "https://example.com/" ∧
    docMixed.ogTitle = none ∧
    (extractMetadata docMixed "https://example.com/").ogTitle = "" :=
  ⟨rfl, (c7_amended docMixed "https://example.com/").2.1 rfl,
   rfl, (c7_amended docMixed "https://example.com/").2.2.2.1 rfl,
   rfl, (c7_amended docMixed "https://example.com/").2.2.2.2.2.1 rfl⟩

theorem crawlWebsite_eq_invalid (fetch : String → Except String FetchResp)
    (url : String) (hv : validateUrl url = none) :
    crawlWebsite fetch url = Except.error "爬取失败: 无效的URL格式" := by
  unfold crawlWebsite crawlWebsiteAux
  rw [hv]

theorem crawlWebsite_eq_error (fetch : String → Except String FetchResp)
    (url : String) (parsed : JsUrl) (e : String)
    (hv : validateUrl url = some parsed) (hf : fetch parsed.href = Except.error e) :
    crawlWebsite fetch url = Except.error ("爬取失败: " ++ e) := by
  unfold crawlWebsite crawlWebsiteAux
  rw [hv]
  dsimp only
  rw [hf]

theorem crawlWebsite_eq_ok (fetch : String → Except String FetchResp)
    (url : String) (parsed : JsUrl) (response : FetchResp)
    (hv : validateUrl url = some parsed) (hf : fetch parsed.href = Except.ok response) :
    crawlWebsite fetch url =
      Except.ok { url := parsed.href, status := response.status,
                  data := { metadata := extractMetadata response.body parsed.href,
                            technologies := detectTechnologies response,
                            links := extractLinks response.body parsed } } := by
  unfold crawlWebsite crawlWebsiteAux
  rw [hv]
  dsimp only
  rw [hf]

theorem extractLinksGo_filterMap (p : JsUrl) :
    ∀ anchors, extractLinksGo (originOf p) p.hostname anchors =
      anchors.filterMap (resolveAnchor p) := by
  intro anchors
  induction anchors with
  | nil => rfl
  | cons a rest ih =>
    cases ha : a.href with
    | none => simp [extractLinksGo, resolveAnchor, ha, ih]
    | some h =>
      by_cases hh : h = ""
      · simp [extractLinksGo, resolveAnchor, ha, hh, ih]
      · cases hr : resolve (originOf p) h with
        | none => simp [extractLinksGo, resolveAnchor, ha, hh, hr, ih]
        | some u =>
          by_cases hu : u.hostname = p.hostname
          · simp [extractLinksGo, resolveAnchor, ha, hh, hr, hu, ih]
          · simp [extractLinksGo, resolveAnchor, ha, hh, hr, hu, ih]

/-- Claim C8, counterexample.  The claim says a relative href resolves
against the page URL including its path; on the page
`https://ex.com/dir/page.html`, the source resolves the anchor `sub.html`
against the bare origin, producing `https://ex.com/sub.html`, while
resolution against the page URL would produce
`https://ex.com/dir/sub.html`. -/
theorem c8_counterexample :
    extractLinks docRelLink pageDir =
      [{ url := "https://ex.com/sub.html", text := "s", external := false }] ∧
    (resolve pageDir "sub.html").map JsUrl.href =
      some "https://ex.com/dir/sub.html" ∧
    "https://ex.com/sub.html" ≠ "https://ex.com/dir/sub.html" := by
  exact ⟨rfl, rfl, by decide⟩

/-- Claim C8, amended.  Link extraction resolves every anchor's href against
the page's ORIGIN (`protocol//host`, root path) — not against the full
page URL — classifies it external by hostname comparison, and silently
skips anchors whose href is absent, empty, or fails to resolve: the output
is exactly the anchors' image under `resolveAnchor`. -/
theorem c8_amended (doc : ParsedDoc) (parsedUrl : JsUrl) :
    extractLinks doc parsedUrl = doc.anchors.filterMap (resolveAnchor parsedUrl) :=
  extractLinksGo_filterMap parsedUrl doc.anchors

/-- Claim C9, counterexample.  The claim says the body of a successful visit
is parsed exactly once; a successful crawl of `https://example.com`
performs two cheerio.load invocations (crawler.js lines 54 and 193). -/
theorem c9_counterexample :
    (crawlWebsite fetchTechTwo "https://example.com").toOption.isSome = true ∧
    (crawlWebsiteAux fetchTechTwo "https://example.com").2 ≠ 1 := by
  exact ⟨rfl, by decide⟩

/-- Claim C9, amended.  Every successful visit parses the fetched body
exactly twice: once in `crawlWebsite`, whose single parse result feeds
both metadata and link extraction, and once more inside
`detectTechnologies`, which re-parses the same body. -/
theorem c9_amended (fetch : String → Except String FetchResp) (url : String)
    (h : (crawlWebsite fetch url).toOption.isSome = true) :
    (crawlWebsiteAux fetch url).2 = 2 := by
  cases hv : validateUrl url with
  | none =>
    rw [crawlWebsite_eq_invalid fetch url hv] at h
    simp [Except.toOption] at h
  | some parsed =>
    cases hf : fetch parsed.href with
    | error e =>
      rw [crawlWebsite_eq_error fetch url parsed e hv hf] at h
      simp [Except.toOption] at h
    | ok response =>
      unfold crawlWebsiteAux
      rw [hv]
      dsimp only
      rw [hf]
      rfl

/-- Claim C9, witness.  The amended statement instantiated on the successful
crawl of `https://example.com`. -/
theorem c9_amended_witness :
    (crawlWebsite fetchTechTwo "https://example.com").toOption.isSome = true ∧
    (crawlWebsiteAux fetchTechTwo "https://example.com").2 = 2 :=
  ⟨rfl, c9_amended fetchTechTwo "https://example.com" rfl⟩

/-- Claim C4.  The claim is right about the intent — the limiter middleware
only delays or passes requests through and `applyRateLimit` always
resolves — but the code cannot deliver it: crawler.js line 7 destructures
a `rateLimit` property that the middleware module never exports
(rateLimit.js assigns only `strict`, `api` and `auth`, the factory being
the default export itself), so the `CrawlerService` constructor's call to
`rateLimit(...)` throws a `TypeError` at module load and no acquire is
ever granted. -/
theorem c4_import_bug :
    crawlerServiceInit = Except.error "TypeError: rateLimit is not a function" := rfl

theorem createLimiter_emptyReq (options : LimiterOptions) (now : Nat)
    (res : Bool) (st : LimiterState) :
    createLimiter options now emptyReq res st = (MwOutcome.next, st) := rfl

/-- Under the intended wiring, every `applyRateLimit` acquisition resolves
with a grant and leaves the limiter state unchanged: `K` acquisitions
produce `K` grants, none dropped, none delayed — the middleware's
client-identification step throws on the crawler's empty request object
and the catch block passes the request through. -/
theorem applyRateLimit_all_grants (now : Nat) :
    ∀ k st, (applyRateLimitRun now st k).1 = List.replicate k MwOutcome.next ∧
      (applyRateLimitRun now st k).2 = st := by
  intro k
  induction k with
  | zero => intro st; exact ⟨rfl, rfl⟩
  | succ n ih =>
    intro st
    have h1 : applyRateLimit now st = (MwOutcome.next, st) :=
      createLimiter_emptyReq crawlerLimiterOptions now false st
    simp [applyRateLimitRun, h1, List.replicate_succ, (ih st).1, (ih st).2]

/-- Claim C1, counterexample.  The claim says a second persist never shrinks
the stored technology set; after persisting a crawl that detected nginx
and React and then one that detected only nginx, React is gone from the
record — line 113 of crawler.js replaces the array instead of merging. -/
theorem c1_counterexample :
    "React" ∈ ((updateWebsiteData fetchTechTwo websiteRec0).1).technologies ∧
    "React" ∉ ((updateWebsiteData fetchTechOne
      ((updateWebsiteData fetchTechTwo websiteRec0).1)).1).technologies := by
  decide

/-- Claim C1, amended.  Persisting a successful crawl REPLACES the stored
technology set with exactly the crawl's detected set — union with the
previously stored technologies is not performed, so technologies detected
earlier and missed by the latest crawl are dropped. -/
theorem c1_amended (fetch : String → Except String FetchResp)
    (website : WebsiteRec)
    (h : (crawlWebsite fetch website.domain).toOption.isSome = true) :
    some ((updateWebsiteData fetch website).1.technologies) =
      (crawlWebsite fetch website.domain).toOption.map (fun r => r.data.technologies) := by
  unfold updateWebsiteData
  cases hc : crawlWebsite fetch website.domain with
  | error e => rw [hc] at h; simp [Except.toOption] at h
  | ok result => simp [Except.toOption]

/-- Claim C1, witness.  The amended statement instantiated on the second
persist of the counterexample scenario. -/
theorem c1_amended_witness :
    ((crawlWebsite fetchTechOne
        ((updateWebsiteData fetchTechTwo websiteRec0).1).domain).toOption.isSome = true) ∧
    some (((updateWebsiteData fetchTechOne
        ((updateWebsiteData fetchTechTwo websiteRec0).1)).1).technologies) =
      (crawlWebsite fetchTechOne
        ((updateWebsiteData fetchTechTwo websiteRec0).1).domain).toOption.map
        (fun r => r.data.technologies) :=
  ⟨by decide, c1_amended fetchTechOne ((updateWebsiteData fetchTechTwo websiteRec0).1) (by decide)⟩

theorem except_toOption_error {ε α : Type} (e : ε) :
    (Except.error e : Except ε α).toOption = none := rfl

theorem except_toOption_ok {ε α : Type} (r : α) :
    (Except.ok r : Except ε α).toOption = some r := rfl

theorem batch_success_eq (fetch : String → Except String FetchResp) :
    ∀ urls, (batchCrawlWebsites fetch urls).1 =
      urls.filterMap (fun u => (crawlWebsite fetch u).toOption) := by
  intro urls
  induction urls with
  | nil => rfl
  | cons u rest ih =>
    cases hc : crawlWebsite fetch u with
    | ok r => simp [batchCrawlWebsites, hc, Except.toOption, ih]
    | error e => simp [batchCrawlWebsites, hc, Except.toOption, ih]

theorem batch_failed_eq (fetch : String → Except String FetchResp) :
    ∀ urls, (batchCrawlWebsites fetch urls).2 =
      urls.filterMap (fun u =>
        match crawlWebsite fetch u with
        | .error e => some (u, e)
        | .ok _ => none) := by
  intro urls
  induction urls with
  | nil => rfl
  | cons u rest ih =>
    cases hc : crawlWebsite fetch u with
    | ok r => simp [batchCrawlWebsites, hc, ih]
    | error e => simp [batchCrawlWebsites, hc, ih]

theorem filterMap_length_all_some {α β : Type} (g : α → Option β) :
    ∀ l : List α, (∀ u ∈ l, (g u).isSome = true) →
      (l.filterMap g).length = l.length := by
  intro l
  induction l with
  | nil => intro _; rfl
  | cons u rest ih =>
    intro h
    cases hg : g u with
    | none => have := h u (by simp); rw [hg] at this; simp at this
    | some v =>
      have hr := ih (fun x hx => h x (by simp [hx]))
      simp [List.filterMap_cons, hg, hr]

theorem filterMap_nil_of_none {α β : Type} (g : α → Option β) :
    ∀ l : List α, (∀ u ∈ l, g u = none) → l.filterMap g = [] := by
  intro l
  induction l with
  | nil => intro _; rfl
  | cons u rest ih =>
    intro h
    have hu := h u (by simp)
    have hr := ih (fun x hx => h x (by simp [hx]))
    simp [List.filterMap_cons, hu, hr]

/-- Claim C5.  Partial-failure isolation of the batch crawl: a batch in
which exactly one position fails yields successes for every other
position (N-1 of them) and a single failure entry naming the failing URL
with its error; one URL's failure does not affect any other URL's
outcome. -/
theorem c5_partial_isolation (fetch : String → Except String FetchResp)
    (pre post : List String) (bad e : String)
    (h1 : ∀ u ∈ pre, (crawlWebsite fetch u).toOption.isSome = true)
    (h2 : ∀ u ∈ post, (crawlWebsite fetch u).toOption.isSome = true)
    (hb : crawlWebsite fetch bad = Except.error e) :
    (batchCrawlWebsites fetch (pre ++ bad :: post)).1.length = pre.length + post.length ∧
    (batchCrawlWebsites fetch (pre ++ bad :: post)).2 = [(bad, e)] ∧
    (batchCrawlWebsites fetch (pre ++ bad :: post)).1 =
      (pre ++ post).filterMap (fun u => (crawlWebsite fetch u).toOption) := by
  refine ⟨?_, ?_, ?_⟩
  · rw [batch_success_eq]
    have hp := filterMap_length_all_some (fun u => (crawlWebsite fetch u).toOption) pre h1
    have hq := filterMap_length_all_some (fun u => (crawlWebsite fetch u).toOption) post h2
    simp only [List.filterMap_append, List.filterMap_cons, hb, except_toOption_error,
      List.length_append, hp, hq]
  · rw [batch_failed_eq]
    have hp : pre.filterMap (fun u =>
        match crawlWebsite fetch u with
        | .error e' => some (u, e')
        | .ok _ => none) = [] := by
      refine filterMap_nil_of_none _ pre (fun u hu => ?_)
      cases hc : crawlWebsite fetch u with
      | ok r => rfl
      | error e' => have := h1 u hu; rw [hc] at this; simp [Except.toOption] at this
    have hq : post.filterMap (fun u =>
        match crawlWebsite fetch u with
        | .error e' => some (u, e')
        | .ok _ => none) = [] := by
      refine filterMap_nil_of_none _ post (fun u hu => ?_)
      cases hc : crawlWebsite fetch u with
      | ok r => rfl
      | error e' => have := h2 u hu; rw [hc] at this; simp [Except.toOption] at this
    simp [List.filterMap_append, List.filterMap_cons, hb, hp, hq]
  · rw [batch_success_eq]
    simp only [List.filterMap_append, List.filterMap_cons, hb, except_toOption_error]

/-- Claim C5, witness.  The theorem instantiated on a three-URL batch whose
middle URL is unreachable. -/
theorem c5_partial_isolation_witness :
    (crawlWebsite fetchBatch "https://one.example").toOption.isSome = true ∧
    (crawlWebsite fetchBatch "https://two.example").toOption.isSome = true ∧
    crawlWebsite fetchBatch "https://bad.example" =
      Except.error "爬取失败: connect ECONNREFUSED" ∧
    (batchCrawlWebsites fetchBatch
      ["https://one.example", "https://bad.example", "https://two.example"]).1.length = 2 ∧
    (batchCrawlWebsites fetchBatch
      ["https://one.example", "https://bad.example", "https://two.example"]).2 =
      [("https://bad.example", "爬取失败: connect ECONNREFUSED")] := by
  have h := c5_partial_isolation fetchBatch ["https://one.example"]
    ["https://two.example"] "https://bad.example" "爬取失败: connect ECONNREFUSED"
    (by decide) (by decide) rfl
  exact ⟨by decide, by decide, rfl, h.1, h.2.1⟩

/-- Claim C2, counterexample.  The claim says a deep crawl whose seed fetch
fails returns an empty result sequence together with one failure entry for
the seed; the source's return value is the bare empty result list — the
failure is only written to the log channel, not returned. -/
theorem c2_counterexample :
    deepCrawlWebsite fetchFailAll "https://seed.example" 2 3 = some [] ∧
    deepCrawlInstr fetchFailAll "https://seed.example" 2 3 =
      some ([], [("https://seed.example", "爬取失败: timeout of 10000ms exceeded")],
            [("https://seed.example", false)]) :=
  ⟨rfl, rfl⟩

/-- Claim C2, amended.  A deep crawl whose seed crawl fails returns the
empty result sequence and nothing else: the call does not throw, and the
seed's error is attributed to the seed URL only in the logger side
channel, never in the returned value. -/
theorem c2_amended (fetch : String → Except String FetchResp) (seed : String)
    (maxDepth fuel : Nat) (e : String) (hf : 2 ≤ fuel)
    (hc : crawlWebsite fetch seed = Except.error e) :
    deepCrawlInstr fetch seed maxDepth fuel = some ([], [(seed, e)], [(seed, false)]) ∧
    deepCrawlWebsite fetch seed maxDepth fuel = some [] := by
  obtain ⟨k, rfl⟩ : ∃ k, fuel = k + 2 := ⟨fuel - 2, by omega⟩
  have hgo : deepCrawlGo fetch maxDepth (k + 2) [] [] [] [] [(seed, 0)] =
      some ([], [(seed, e)], [(seed, false)]) := by
    simp [deepCrawlGo, hc]
  exact ⟨hgo, by unfold deepCrawlWebsite; rw [hgo]; rfl⟩

/-- Claim C2, witness.  The amended statement instantiated on a seed whose
fetch times out. -/
theorem c2_amended_witness :
    (2 ≤ 4) ∧
    crawlWebsite fetchFailAll "https://w.example" =
      Except.error "爬取失败: timeout of 10000ms exceeded" ∧
    deepCrawlInstr fetchFailAll "https://w.example" 5 4 =
      some ([], [("https://w.example", "爬取失败: timeout of 10000ms exceeded")],
            [("https://w.example", false)]) :=
  ⟨by decide, rfl,
   (c2_amended fetchFailAll "https://w.example" 5 4
     "爬取失败: timeout of 10000ms exceeded" (by decide) rfl).1⟩

theorem succCount_snoc_false (att : List (String × Bool)) (v u : String) :
    succCount (att ++ [(v, false)]) u = succCount att u := by
  simp [succCount, List.filter_append]

theorem succCount_snoc_true (att : List (String × Bool)) (v u : String) :
    succCount (att ++ [(v, true)]) u =
      succCount att u + (if v = u then 1 else 0) := by
  by_cases h : v = u <;> simp [succCount, List.filter_append, h]

theorem deepCrawlGo_succCount (fetch : String → Except String FetchResp)
    (maxDepth : Nat) :
    ∀ fuel visited results errLog att queue out,
      deepCrawlGo fetch maxDepth fuel visited results errLog att queue = some out →
      (∀ u, succCount att u ≤ 1) →
      (∀ u, 1 ≤ succCount att u → visited.contains u = true) →
      ∀ u, succCount out.2.2 u ≤ 1 := by
  intro fuel
  induction fuel with
  | zero =>
    intro visited results errLog att queue out h
    exact absurd h (by simp [deepCrawlGo])
  | succ n ih =>
    intro visited results errLog att queue out h hc hv u
    cases queue with
    | nil =>
      simp only [deepCrawlGo, Option.some.injEq] at h
      subst h
      exact hc u
    | cons entry rest =>
      obtain ⟨url, depth⟩ := entry
      by_cases hguard : (decide (maxDepth < depth) || visited.contains url) = true
      · simp only [deepCrawlGo, hguard, if_true] at h
        exact ih _ _ _ _ _ _ h hc hv u
      · have hguard' : (decide (maxDepth < depth) || visited.contains url) = false := by
          simpa using hguard
        have hvu : visited.contains url = false := (Bool.or_eq_false_iff.mp hguard').2
        cases hcw : crawlWebsite fetch url with
        | error e =>
          simp only [deepCrawlGo, hguard', Bool.false_eq_true, if_false, hcw] at h
          refine ih _ _ _ _ _ _ h (fun w => ?_) (fun w hw => ?_) u
          · rw [succCount_snoc_false]; exact hc w
          · rw [succCount_snoc_false] at hw; exact hv w hw
        | ok result =>
          simp only [deepCrawlGo, hguard', Bool.false_eq_true, if_false, hcw] at h
          have hz : succCount att url = 0 := by
            by_contra hnz
            have h1 : 1 ≤ succCount att url := Nat.one_le_iff_ne_zero.mpr hnz
            have := hv url h1
            rw [hvu] at this
            exact Bool.false_ne_true this
          refine ih _ _ _ _ _ _ h (fun w => ?_) (fun w hw => ?_) u
          · rw [succCount_snoc_true]
            by_cases hw : url = w
            · subst hw; rw [hz]; simp
            · simp [hw]; exact hc w
          · by_cases hwu : url = w
            · subst hwu; simp
            · rw [succCount_snoc_true] at hw
              simp [hwu] at hw
              have hmem : w ∈ visited := by simpa using hv w hw
              simp [hmem]

/-- Claim C3, counterexample.  The claim says the fetcher is invoked at most
once per normalized URL per run, even for URLs whose earlier visit failed;
in the scenario where the seed links to `/b` and `/c`, `/b` times out and
`/c` links back to `/b`, the fetcher is invoked on
`https://a.example/b` twice — a failed crawl never enters the visited
set (crawler.js line 273 runs only after a successful crawl). -/
theorem c3_counterexample :
    deepCrawlFetchTrace fetchSiteA "https://a.example/" 2 20 =
      some ["https://a.example/", "https://a.example/b", "https://a.example/c",
            "https://a.example/b"] ∧
    (["https://a.example/", "https://a.example/b", "https://a.example/c",
      "https://a.example/b"].filter
        (fun s => decide (s = "https://a.example/b"))).length = 2 :=
  ⟨rfl, rfl⟩

/-- Claim C3, amended.  Within one deep-crawl run, each exact URL string is
SUCCESSFULLY crawled (and hence fetched) at most once — the visited set,
updated only on success and keyed by the pre-normalization string, makes a
second successful crawl of the same string impossible — but a URL whose
crawl failed may be fetched again every time it is rediscovered. -/
theorem c3_amended (fetch : String → Except String FetchResp) (seed : String)
    (maxDepth fuel : Nat)
    (out : List CrawlResult × List (String × String) × List (String × Bool))
    (h : deepCrawlInstr fetch seed maxDepth fuel = some out) (u : String) :
    succCount out.2.2 u ≤ 1 :=
  deepCrawlGo_succCount fetch maxDepth fuel [] [] [] [] [(seed, 0)] out h
    (fun w => by simp [succCount])
    (fun w hw => by simp [succCount] at hw) u

/-- Claim C3, witness.  The amended statement instantiated on a run whose
seed crawl fails once. -/
theorem c3_amended_witness :
    deepCrawlInstr fetchFailAll "https://cw.example" 2 3 =
      some ([], [("https://cw.example", "爬取失败: timeout of 10000ms exceeded")],
            [("https://cw.example", false)]) ∧
    succCount [("https://cw.example", false)] "https://cw.example" ≤ 1 :=
  ⟨rfl,
   c3_amended fetchFailAll "https://cw.example" 2 3
     ([], [("https://cw.example", "爬取失败: timeout of 10000ms exceeded")],
      [("https://cw.example", false)]) rfl "https://cw.example"⟩

theorem qMeasure_cons (m B : Nat) (e : String × Nat) (q : List (String × Nat)) :
    qMeasure m B (e :: q) = linkWeight m B e.2 + qMeasure m B q := by
  simp [qMeasure]

theorem qMeasure_append (m B : Nat) (q1 q2 : List (String × Nat)) :
    qMeasure m B (q1 ++ q2) = qMeasure m B q1 + qMeasure m B q2 := by
  simp [qMeasure]

theorem qMeasure_map (m B d : Nat) (L : List LinkRef) :
    qMeasure m B (L.map (fun l => (l.url, d))) = L.length * linkWeight m B d := by
  induction L with
  | nil => simp [qMeasure]
  | cons a rest ih =>
    rw [List.map_cons, qMeasure_cons, ih, List.length_cons]
    ring

theorem linkWeight_pos (m B d : Nat) : 0 < linkWeight m B d := by
  unfold linkWeight
  exact pow_pos (Nat.succ_pos B) _

theorem linkWeight_step (m B d : Nat) (hd : d ≤ m) :
    linkWeight m B d = linkWeight m B (d + 1) * (B + 1) := by
  unfold linkWeight
  have h1 : m + 2 - d = (m + 2 - (d + 1)) + 1 := by omega
  rw [h1, pow_succ]

theorem extractLinksGo_length_le (base : JsUrl) (ph : String) :
    ∀ anchors, (extractLinksGo base ph anchors).length ≤ anchors.length := by
  intro anchors
  induction anchors with
  | nil => simp [extractLinksGo]
  | cons a rest ih =>
    cases ha : a.href with
    | none =>
      simp only [extractLinksGo, ha, List.length_cons]
      exact Nat.le_succ_of_le ih
    | some h =>
      by_cases hh : h = ""
      · simp only [extractLinksGo, ha, hh, if_pos, List.length_cons]
        exact Nat.le_succ_of_le ih
      · cases hr : resolve base h with
        | none =>
          simp only [extractLinksGo, ha, hh, if_neg, hr, List.length_cons]
          exact Nat.le_succ_of_le ih
        | some u =>
          by_cases hu : u.hostname = ph <;>
            simp only [extractLinksGo, ha, hh, if_neg, hr, hu, if_pos, List.length_cons] <;>
            exact Nat.succ_le_succ ih

theorem crawlWebsite_links_le (fetch : String → Except String FetchResp) (B : Nat)
    (hB : ∀ u r, fetch u = Except.ok r → r.body.anchors.length ≤ B) :
    ∀ url res, crawlWebsite fetch url = Except.ok res → res.data.links.length ≤ B := by
  intro url res h
  cases hv : validateUrl url with
  | none =>
    rw [crawlWebsite_eq_invalid fetch url hv] at h
    exact Except.noConfusion h
  | some parsed =>
    cases hf : fetch parsed.href with
    | error e =>
      rw [crawlWebsite_eq_error fetch url parsed e hv hf] at h
      exact Except.noConfusion h
    | ok response =>
      rw [crawlWebsite_eq_ok fetch url parsed response hv hf] at h
      injection h with h2
      subst h2
      exact le_trans (extractLinksGo_length_le (originOf parsed) parsed.hostname
        response.body.anchors) (hB parsed.href response hf)

theorem fetchOf_anchors_le (graph : List (String × FetchResp)) :
    ∀ u r, fetchOf graph u = Except.ok r → r.body.anchors.length ≤ maxAnchors graph := by
  induction graph with
  | nil =>
    intro u r h
    exact absurd h (by simp [fetchOf, assocFind])
  | cons p rest ih =>
    obtain ⟨k, v⟩ := p
    intro u r h
    by_cases hk : u = k
    · have hfe : fetchOf ((k, v) :: rest) u = Except.ok v := by
        simp [fetchOf, assocFind, hk]
      rw [hfe] at h
      injection h with h2
      subst h2
      exact le_max_left _ _
    · have hfe : fetchOf ((k, v) :: rest) u = fetchOf rest u := by
        simp [fetchOf, assocFind, hk]
      rw [hfe] at h
      exact le_trans (ih u r h) (le_max_right _ _)

theorem deepCrawlGo_total (fetch : String → Except String FetchResp)
    (maxDepth B : Nat)
    (hB : ∀ u r, fetch u = Except.ok r → r.body.anchors.length ≤ B) :
    ∀ fuel visited results errLog att queue,
      qMeasure maxDepth B queue < fuel →
      (deepCrawlGo fetch maxDepth fuel visited results errLog att queue).isSome = true := by
  intro fuel
  induction fuel with
  | zero =>
    intro _ _ _ _ queue hq
    exact absurd hq (by omega)
  | succ n ih =>
    intro visited results errLog att queue hq
    cases queue with
    | nil => simp [deepCrawlGo]
    | cons entry rest =>
      obtain ⟨url, depth⟩ := entry
      rw [qMeasure_cons] at hq
      dsimp only at hq
      have hwpos : 0 < linkWeight maxDepth B depth := linkWeight_pos maxDepth B depth
      by_cases hguard : (decide (maxDepth < depth) || visited.contains url) = true
      · simp only [deepCrawlGo, hguard, if_true]
        exact ih _ _ _ _ _ (by omega)
      · have hguard' : (decide (maxDepth < depth) || visited.contains url) = false := by
          simpa using hguard
        have hd : depth ≤ maxDepth := by
          have h5 := (Bool.or_eq_false_iff.mp hguard').1
          simp at h5
          omega
        cases hcw : crawlWebsite fetch url with
        | error e =>
          simp only [deepCrawlGo, hguard', Bool.false_eq_true, if_false, hcw]
          exact ih _ _ _ _ _ (by omega)
        | ok result =>
          have hlinks : result.data.links.length ≤ B :=
            crawlWebsite_links_le fetch B hB url result hcw
          have hlen : ((result.data.links.filter (fun l => !l.external)).filter
              (fun l => !(visited ++ [url]).contains l.url)).length ≤ B :=
            le_trans (le_trans (List.length_filter_le _ _)
              (List.length_filter_le _ _)) hlinks
          have hqd : qMeasure maxDepth B (rest ++
              ((result.data.links.filter (fun l => !l.external)).filter
                (fun l => !(visited ++ [url]).contains l.url)).map
                (fun l => (l.url, depth + 1))) < n := by
            rw [qMeasure_append, qMeasure_map]
            have h2 : linkWeight maxDepth B depth =
                B * linkWeight maxDepth B (depth + 1) + linkWeight maxDepth B (depth + 1) := by
              rw [linkWeight_step maxDepth B depth hd]; ring
            rw [h2] at hq
            have h3 : ((result.data.links.filter (fun l => !l.external)).filter
                  (fun l => !(visited ++ [url]).contains l.url)).length *
                linkWeight maxDepth B (depth + 1) ≤
                B * linkWeight maxDepth B (depth + 1) :=
              Nat.mul_le_mul_right _ hlen
            have h4 : 0 < linkWeight maxDepth B (depth + 1) :=
              linkWeight_pos maxDepth B (depth + 1)
            generalize ((result.data.links.filter (fun l => !l.external)).filter
                (fun l => !(visited ++ [url]).contains l.url)).length *
              linkWeight maxDepth B (depth + 1) = P at h3 ⊢
            generalize B * linkWeight maxDepth B (depth + 1) = Q at h3 hq
            omega
          simp only [deepCrawlGo, hguard', Bool.false_eq_true, if_false, hcw]
          exact ih _ _ _ _ _ hqd

/-- Claim C10.  Termination of the deep-crawl traversal: on a finite static
site (`graph`), any fuel strictly greater than
`(maxAnchors graph + 1) ^ (maxDepth + 2)` is enough for the frontier loop
to exhaust its queue — every iteration pops one entry, out-of-depth and
already-visited entries enqueue nothing, and a visited page enqueues at
most `maxAnchors graph` links one level deeper, so the weighted frontier
measure decreases strictly at every step. -/
theorem c10_termination (graph : List (String × FetchResp)) (seed : String)
    (maxDepth fuel : Nat)
    (h : (maxAnchors graph + 1) ^ (maxDepth + 2) < fuel) :
    (deepCrawlWebsite (fetchOf graph) seed maxDepth fuel).isSome = true := by
  have hq : qMeasure maxDepth (maxAnchors graph) [(seed, 0)] < fuel := by
    have he : qMeasure maxDepth (maxAnchors graph) [(seed, 0)] =
        (maxAnchors graph + 1) ^ (maxDepth + 2) := by
      simp [qMeasure, linkWeight]
    rw [he]
    exact h
  have hs := deepCrawlGo_total (fetchOf graph) maxDepth (maxAnchors graph)
    (fetchOf_anchors_le graph) fuel [] [] [] [] [(seed, 0)] hq
  unfold deepCrawlWebsite
  rw [Option.isSome_map']
  exact hs

/-- Claim C10, witness.  Termination on a one-page site at depth 0 with the
computed fuel bound. -/
theorem c10_termination_witness :
    ((maxAnchors graphOne + 1) ^ (0 + 2) < 5) ∧
    (deepCrawlWebsite (fetchOf graphOne) "https://g.example/" 0 5).isSome = true :=
  ⟨by decide, c10_termination graphOne "https://g.example/" 0 5 (by decide)⟩

end Crawler
